import Mathlib

/-!
Shallow embedding of the LS8 virtual machine implemented in `ls8/cpu.py`.

The CPU state (`CPUState`) mirrors the fields of the Python `CPU` class:
`self.ram` (a Python list of 256 integers), `self.reg` (8 integers),
`self.pc`, `self.running`, `self.op_pc` and `self.equal`.  The attribute
`self.sp` is the constant register index 7 (it is assigned once in
`__init__` and never written again), so it is inlined as the literal `7`.
`output` collects the values printed by the PRN handler.

Python list indexing is modelled faithfully by `pyGet`/`pySet`: an index
`i` with `0 ≤ i < len` addresses cell `i`, an index with `-len ≤ i < 0`
addresses cell `i + len`, and any other index raises `IndexError`.
Register and memory cells are unbounded integers (`Int`), exactly as in
the Python source, which never masks values to 8 bits.

Each `handle_*` method becomes a function `h*` returning
`Except PyErr CPUState`; the fetch-decode-execute loop `CPU.run` becomes
`step` (one loop iteration) and the fuel-indexed `run`.
-/

/-- Errors a handler can raise: a Python `IndexError` from list
indexing, or an explicit `raise Exception(msg)` as in `CPU.alu`. -/
inductive PyErr where
  | indexError
  | exception (msg : String)
deriving DecidableEq, Repr

/-- Python list-index resolution: non-negative indices below the length
are used directly, negative indices count from the end, anything else is
out of range. -/
def pyIdx (n : Nat) (i : Int) : Option Nat :=
  if 0 ≤ i ∧ i < n then some i.toNat
  else if -(n : Int) ≤ i ∧ i < 0 then some (i + n).toNat
  else none

/-- Python `l[i]` on a list of integers. -/
def pyGet (l : List Int) (i : Int) : Except PyErr Int :=
  match pyIdx l.length i with
  | some k => .ok (l.getD k 0)
  | none => .error .indexError

/-- Python `l[i] = v` on a list of integers. -/
def pySet (l : List Int) (i : Int) (v : Int) : Except PyErr (List Int) :=
  match pyIdx l.length i with
  | some k => .ok (l.set k v)
  | none => .error .indexError

-- Opcode constants, as in the module header of cpu.py.

def PRN : Int := 0b01000111
def LDI : Int := 0b10000010
def HLT : Int := 0b00000001
def MUL : Int := 0b10100010
def PUSH : Int := 0b01000101
def POP : Int := 0b01000110
def CALL : Int := 0b01010000
def RET : Int := 0b00010001
def ADD : Int := 0b10100000
def CMP : Int := 0b10100111
def JMP : Int := 0b01010100
def JEQ : Int := 0b01010101
def JNE : Int := 0b01010110

/-- The keys of `self.branch_table`, in insertion order. -/
def knownOpcodes : List Int :=
  [PRN, LDI, ADD, HLT, MUL, PUSH, POP, CALL, RET, CMP, JMP, JEQ, JNE]

/-- The mutable state of the `CPU` object (plus the list of values the
PRN handler has printed). -/
structure CPUState where
  ram : List Int
  reg : List Int
  pc : Int
  running : Bool
  op_pc : Bool
  equal : Int
  output : List Int
deriving DecidableEq, Repr

/-- Source method `CPU.__init__`: 256 zeroed memory cells, 8 zeroed registers, PC 0,
running, `op_pc = False`, `equal = 0`.  Note that `self.reg[7]` is left
at 0: the constructor never stores 0xF4 into the stack-pointer register. -/
def initCPU : CPUState :=
  { ram := List.replicate 256 0
    reg := List.replicate 8 0
    pc := 0
    running := true
    op_pc := false
    equal := 0
    output := [] }

/-- The loop body of `CPU.load`: write the image bytes to consecutive
addresses starting at 0 (`self.ram[address] = value; address += 1`). -/
def writeAll : List Int → Nat → List Int → List Int
  | ram, _, [] => ram
  | ram, addr, v :: rest => writeAll (ram.set addr v) (addr + 1) rest

/-- A freshly constructed CPU whose memory has been populated by
`CPU.load` with the given program image. -/
def loadImage (img : List Int) : CPUState :=
  { initCPU with ram := writeAll initCPU.ram 0 img }

/-- Source method `CPU.alu`: `"ADD"` adds `reg[reg_b]` into `reg[reg_a]`, `"MUL"`
multiplies, anything else raises.  No result is masked or wrapped. -/
def alu (op : String) (reg_a reg_b : Int) (s : CPUState) : Except PyErr CPUState :=
  if op = "ADD" then do
    let va ← pyGet s.reg reg_a
    let vb ← pyGet s.reg reg_b
    let reg1 ← pySet s.reg reg_a (va + vb)
    pure { s with reg := reg1 }
  else if op = "MUL" then do
    let va ← pyGet s.reg reg_a
    let vb ← pyGet s.reg reg_b
    let reg1 ← pySet s.reg reg_a (va * vb)
    pure { s with reg := reg1 }
  else
    .error (.exception ("Unsupported ALU operation"))

/-- Source method `CPU.handle_ldi`: `reg[op_a] = op_b`, then the `op_pc` dance
(`op_pc = False`, and since it is false, `pc += 3`). -/
def hLdi (op_a op_b : Int) (s : CPUState) : Except PyErr CPUState := do
  let reg1 ← pySet s.reg op_a op_b
  let t := { s with reg := reg1, op_pc := false }
  pure (if t.op_pc then t else { t with pc := t.pc + 3 })

/-- Source method `CPU.handle_prn`: print `reg[op_a]`, `op_pc = False`, `pc += 2`. -/
def hPrn (op_a op_b : Int) (s : CPUState) : Except PyErr CPUState := do
  let v ← pyGet s.reg op_a
  let t := { s with output := s.output ++ [v], op_pc := false }
  pure (if t.op_pc then t else { t with pc := t.pc + 2 })

/-- Source method `CPU.handle_mul`: delegate to the ALU, then `op_pc = False`, `pc += 3`. -/
def hMul (op_a op_b : Int) (s : CPUState) : Except PyErr CPUState := do
  let u ← alu ("MUL") op_a op_b s
  let t := { u with op_pc := false }
  pure (if t.op_pc then t else { t with pc := t.pc + 3 })

/-- Source method `CPU.handle_add`: delegate to the ALU, then `op_pc = False`, `pc += 3`. -/
def hAdd (op_a op_b : Int) (s : CPUState) : Except PyErr CPUState := do
  let u ← alu ("ADD") op_a op_b s
  let t := { u with op_pc := false }
  pure (if t.op_pc then t else { t with pc := t.pc + 3 })

/-- The body of `CPU.handle_push` after the register operand has been
read from memory: `val = reg[r]`, `reg[7] -= 1`,
`ram[reg[7]] = val`, `op_pc = False`, `pc += 2`.  Factored out so that
sequences of stack operations can be reasoned about directly. -/
def hPushV (r : Int) (s : CPUState) : Except PyErr CPUState := do
  let val ← pyGet s.reg r
  let sp0 ← pyGet s.reg 7
  let reg1 ← pySet s.reg 7 (sp0 - 1)
  let sp1 ← pyGet reg1 7
  let ram1 ← pySet s.ram sp1 val
  let t := { s with reg := reg1, ram := ram1, op_pc := false }
  pure (if t.op_pc then t else { t with pc := t.pc + 2 })

/-- Source method `CPU.handle_push`: `reg = self.ram_read(self.pc + 1)`, then push the
value of that register. -/
def hPush (op_a op_b : Int) (s : CPUState) : Except PyErr CPUState := do
  let r ← pyGet s.ram (s.pc + 1)
  hPushV r s

/-- The body of `CPU.handle_pop` after the register operand has been
read from memory: `val = ram[reg[7]]`, `reg[r] = val`, `reg[7] += 1`
(the increment re-reads `reg[7]`, so a pop into register 7 clobbers the
stack pointer first), `op_pc = False`, `pc += 2`. -/
def hPopV (r : Int) (s : CPUState) : Except PyErr CPUState := do
  let sp0 ← pyGet s.reg 7
  let val ← pyGet s.ram sp0
  let reg1 ← pySet s.reg r val
  let sp1 ← pyGet reg1 7
  let reg2 ← pySet reg1 7 (sp1 + 1)
  let t := { s with reg := reg2, op_pc := false }
  pure (if t.op_pc then t else { t with pc := t.pc + 2 })

/-- Source method `CPU.handle_pop`: `reg = self.ram_read(self.pc + 1)`, then pop into
that register. -/
def hPop (op_a op_b : Int) (s : CPUState) : Except PyErr CPUState := do
  let r ← pyGet s.ram (s.pc + 1)
  hPopV r s

/-- Source method `CPU.handle_halt`: `self.running = False`. -/
def hHlt (op_a op_b : Int) (s : CPUState) : Except PyErr CPUState :=
  pure { s with running := false }

/-- Source method `CPU.handle_call`: read the operand register index from memory,
decrement the stack pointer, store `pc + 2` at the new top of stack, set
`pc` to the value of the operand register (read after the decrement),
and set `op_pc = True` (so the trailing increment is dead code). -/
def hCall (op_a op_b : Int) (s : CPUState) : Except PyErr CPUState := do
  let r ← pyGet s.ram (s.pc + 1)
  let sp0 ← pyGet s.reg 7
  let reg1 ← pySet s.reg 7 (sp0 - 1)
  let sp1 ← pyGet reg1 7
  let ram1 ← pySet s.ram sp1 (s.pc + 2)
  let tgt ← pyGet reg1 r
  let t := { s with reg := reg1, ram := ram1, pc := tgt, op_pc := true }
  pure (if t.op_pc then t else { t with pc := t.pc + 2 })

/-- Source method `CPU.handle_ret`: `pc = ram[reg[7]]`, `reg[7] += 1`,
`op_pc = True` (trailing increment dead). -/
def hRet (op_a op_b : Int) (s : CPUState) : Except PyErr CPUState := do
  let sp0 ← pyGet s.reg 7
  let v ← pyGet s.ram sp0
  let sp1 ← pyGet s.reg 7
  let reg1 ← pySet s.reg 7 (sp1 + 1)
  let t := { s with pc := v, reg := reg1, op_pc := true }
  pure (if t.op_pc then t else { t with pc := t.pc + 1 })

/-- Source method `CPU.handle_cmp`: `equal = 1` if the two registers agree, else `0`;
`op_pc = False`, `pc += 3`. -/
def hCmp (op_a op_b : Int) (s : CPUState) : Except PyErr CPUState := do
  let va ← pyGet s.reg op_a
  let vb ← pyGet s.reg op_b
  let t := { s with equal := if va = vb then 1 else 0, op_pc := false }
  pure (if t.op_pc then t else { t with pc := t.pc + 3 })

/-- Source method `CPU.handle_jmp`: `pc = reg[op_a]`, `op_pc = True`. -/
def hJmp (op_a op_b : Int) (s : CPUState) : Except PyErr CPUState := do
  let v ← pyGet s.reg op_a
  let t := { s with pc := v, op_pc := true }
  pure (if t.op_pc then t else { t with pc := t.pc + 2 })

/-- Source method `CPU.handle_jeq`: when `equal == 1` jump to `reg[op_a]` and set
`op_pc = True`; otherwise `op_pc` keeps whatever value the previous
handler left in it (the source never resets it here), and `pc += 2` runs
only if that stale value is false. -/
def hJeq (op_a op_b : Int) (s : CPUState) : Except PyErr CPUState := do
  let t ← if s.equal = 1 then do
      let v ← pyGet s.reg op_a
      pure { s with pc := v, op_pc := true }
    else
      pure s
  pure (if t.op_pc then t else { t with pc := t.pc + 2 })

/-- Source method `CPU.handle_jne`: when `equal == 0` jump to `reg[op_a]` and set
`op_pc = True`; otherwise `op_pc` is likewise left stale. -/
def hJne (op_a op_b : Int) (s : CPUState) : Except PyErr CPUState := do
  let t ← if s.equal = 0 then do
      let v ← pyGet s.reg op_a
      pure { s with pc := v, op_pc := true }
    else
      pure s
  pure (if t.op_pc then t else { t with pc := t.pc + 2 })

/-- Result of one iteration of the `while self.running` loop body:
either the handler produced a successor state, or the fetched opcode has
no entry in the branch table (the `else` arm that prints
`Error: Instruction {IR} not found` and calls `sys.exit(1)`). -/
inductive StepOut where
  | cont (s : CPUState)
  | unknown (ir : Int) (s : CPUState)
deriving DecidableEq, Repr

/-- One iteration of the fetch-decode-execute loop of `CPU.run`: fetch
`IR = ram[pc]` and the two operand bytes at `pc + 1` and `pc + 2`
unconditionally, then dispatch through the branch table. -/
def step (s : CPUState) : Except PyErr StepOut := do
  let ir ← pyGet s.ram s.pc
  let op_a ← pyGet s.ram (s.pc + 1)
  let op_b ← pyGet s.ram (s.pc + 2)
  if ir = PRN then StepOut.cont <$> hPrn op_a op_b s
  else if ir = LDI then StepOut.cont <$> hLdi op_a op_b s
  else if ir = ADD then StepOut.cont <$> hAdd op_a op_b s
  else if ir = HLT then StepOut.cont <$> hHlt op_a op_b s
  else if ir = MUL then StepOut.cont <$> hMul op_a op_b s
  else if ir = PUSH then StepOut.cont <$> hPush op_a op_b s
  else if ir = POP then StepOut.cont <$> hPop op_a op_b s
  else if ir = CALL then StepOut.cont <$> hCall op_a op_b s
  else if ir = RET then StepOut.cont <$> hRet op_a op_b s
  else if ir = CMP then StepOut.cont <$> hCmp op_a op_b s
  else if ir = JMP then StepOut.cont <$> hJmp op_a op_b s
  else if ir = JEQ then StepOut.cont <$> hJeq op_a op_b s
  else if ir = JNE then StepOut.cont <$> hJne op_a op_b s
  else pure (StepOut.unknown ir s)

/-- Possible outcomes of running the loop with a given amount of fuel:
the loop condition became false (HLT was executed, the process then
exits with status 0), an unknown opcode was reported and the process
exited with status 1, an uncaught Python exception, or the fuel ran out
with the machine still running. -/
inductive RunResult where
  | cleanExit (s : CPUState)
  | errorExit (code : Nat) (offending : Int) (s : CPUState)
  | crashed (e : PyErr) (s : CPUState)
  | outOfFuel (s : CPUState)
deriving DecidableEq, Repr

/-- The `while self.running` loop of `CPU.run`, indexed by fuel. -/
def run : Nat → CPUState → RunResult
  | 0, s => .outOfFuel s
  | Nat.succ n, s =>
    if s.running then
      match step s with
      | .error e => .crashed e s
      | .ok (.cont s1) => run n s1
      | .ok (.unknown ir s1) => .errorExit 1 ir s1
    else .cleanExit s

/-- The CPU state carried by a run outcome. -/
def RunResult.stateOf : RunResult → CPUState
  | .cleanExit s => s
  | .errorExit _ _ s => s
  | .crashed _ s => s
  | .outOfFuel s => s

/-- Did the run fall out of the loop normally (process exit status 0)? -/
def RunResult.isClean : RunResult → Bool
  | .cleanExit _ => true
  | _ => false

/-- Did the run merely exhaust its fuel (machine still running)? -/
def RunResult.isOutOfFuel : RunResult → Bool
  | .outOfFuel _ => true
  | _ => false

/-- The successor state of one loop iteration, when the handler ran. -/
def nextState (s : CPUState) : Option CPUState :=
  match step s with
  | .ok (.cont t) => some t
  | _ => none

/-- Two consecutive loop iterations. -/
def next2 (s : CPUState) : Option CPUState :=
  (nextState s).bind nextState

/-- Decidable equality for `Except`, so that concrete handler and fetch
results can be checked by `decide`. -/
def exceptDecEq {ε α : Type} [DecidableEq ε] [DecidableEq α] :
    DecidableEq (Except ε α)
  | .ok a, .ok b =>
    if h : a = b then .isTrue (by rw [h]) else
      .isFalse (by intro hc; injection hc; contradiction)
  | .ok _, .error _ => .isFalse (by intro hc; cases hc)
  | .error _, .ok _ => .isFalse (by intro hc; cases hc)
  | .error e, .error f =>
    if h : e = f then .isTrue (by rw [h]) else
      .isFalse (by intro hc; injection hc; contradiction)

instance {ε α : Type} [DecidableEq ε] [DecidableEq α] : DecidableEq (Except ε α) :=
  exceptDecEq

/-- A PUSH or POP instruction together with its register operand, for
reasoning about sequences of stack operations. -/
inductive SOp where
  | push (r : Int)
  | pop (r : Int)
deriving DecidableEq, Repr

/-- Execute a sequence of PUSH/POP instructions through the source
handlers (`hPushV`/`hPopV`, the handler bodies once the register operand
has been fetched), collecting for each POP the value it delivered
(the value `handle_pop` reads from `ram[reg[7]]`). -/
def execStack : List SOp → CPUState → Except PyErr (CPUState × List Int)
  | [], s => .ok (s, [])
  | SOp.push r :: rest, s => do
    let s1 ← hPushV r s
    let p ← execStack rest s1
    .ok p
  | SOp.pop r :: rest, s => do
    let sp0 ← pyGet s.reg 7
    let v ← pyGet s.ram sp0
    let s1 ← hPopV r s
    let p ← execStack rest s1
    .ok (p.1, v :: p.2)

/-- Modelled from the spec (P3, stack LIFO): the abstract last-in
first-out stack machine the PUSH/POP handlers are supposed to refine.
PUSH pushes the named register's value onto an abstract stack; POP
removes the most recently pushed value, delivers it, and stores it in
the named register; a POP on an empty stack has no matching PUSH.  The
delivered values therefore come out in exact reverse order of the
matching pushes. -/
def specStack : List SOp → List Int → List Int → Option (List Int × List Int × List Int)
  | [], regs, stk => some (regs, stk, [])
  | SOp.push r :: rest, regs, stk =>
    specStack rest regs (regs.getD r.toNat 0 :: stk)
  | SOp.pop r :: rest, regs, stk =>
    match stk with
    | [] => none
    | v :: stk1 =>
      match specStack rest (regs.set r.toNat v) stk1 with
      | none => none
      | some m => some (m.1, m.2.1, v :: m.2.2)

/-- All register operands in the sequence name a data register R0-R6
(popping into R7 would clobber the stack pointer itself). -/
def opsRegsOK : List SOp → Bool
  | [] => true
  | SOp.push r :: rest => decide (0 ≤ r ∧ r < 7) && opsRegsOK rest
  | SOp.pop r :: rest => decide (0 ≤ r ∧ r < 7) && opsRegsOK rest

/-- Starting from stack depth `d`, every prefix of the sequence keeps
the depth between 0 and `cap` (each POP finds a matching earlier PUSH,
and the stack never grows past the initial stack-pointer value). -/
def depthsOK : List SOp → Int → Int → Bool
  | [], _, _ => true
  | SOp.push _ :: rest, d, cap => decide (d + 1 ≤ cap) && depthsOK rest (d + 1) cap
  | SOp.pop _ :: rest, d, cap => decide (1 ≤ d) && depthsOK rest (d - 1) cap

/-- Number of pushes minus number of pops. -/
def netBal : List SOp → Int
  | [] => 0
  | SOp.push _ :: rest => netBal rest + 1
  | SOp.pop _ :: rest => netBal rest - 1

-- Concrete program images and states used to exercise the theorems.

/-- The spec's end-to-end scenario image:
LDI R0,8; LDI R1,9; ADD R0,R1; PRN R0; HLT. -/
def progScenario : List Int :=
  [0b10000010, 0, 8, 0b10000010, 1, 9, 0b10100000, 0, 1, 0b01000111, 0, 0b00000001]

/-- LDI R0,5; JMP R0; then at address 5: JEQ R1.  The JMP leaves
`op_pc = True`, so the following not-taken JEQ never advances PC. -/
def progJeqStuck : List Int :=
  [0b10000010, 0, 5, 0b01010100, 0, 0b01010101, 1]

/-- LDI R0,200; LDI R1,100; ADD R0,R1; JMP R0.  The unwrapped ADD makes
R0 = 300 and the JMP sends PC there. -/
def progPcEscape : List Int :=
  [0b10000010, 0, 200, 0b10000010, 1, 100, 0b10100000, 0, 1, 0b01010100, 0]

/-- LDI R7,100; LDI R0,5; PUSH R0; POP R7.  A balanced PUSH/POP pair
whose POP names register 7, clobbering the stack pointer. -/
def progPopIntoSp : List Int :=
  [0b10000010, 7, 100, 0b10000010, 0, 5, 0b01000101, 0, 0b01000110, 7]

/-- A state about to execute ADD R0,R1 with R0 = 200 and R1 = 100. -/
def sAddWrapCex : CPUState :=
  { ram := writeAll (List.replicate 256 0) 0 [0b10100000, 0, 1]
    reg := [200, 100, 0, 0, 0, 0, 0, 0]
    pc := 0
    running := true
    op_pc := false
    equal := 0
    output := [] }

/-- A state about to execute CALL R0 at address 0, with R0 pointing at a
RET instruction at address 3 and the stack pointer at 10. -/
def sCallRet : CPUState :=
  { ram := writeAll (List.replicate 256 0) 0 [0b01010000, 0, 0, 0b00010001]
    reg := [3, 0, 0, 0, 0, 0, 0, 10]
    pc := 0
    running := true
    op_pc := false
    equal := 0
    output := [] }

/-- A state with data in R0/R1 and the stack pointer at 10, used to run
a concrete balanced PUSH/POP sequence. -/
def sStackDemo : CPUState :=
  { ram := List.replicate 256 0
    reg := [5, 6, 0, 0, 0, 0, 0, 10]
    pc := 0
    running := true
    op_pc := false
    equal := 0
    output := [] }

/-- A state about to execute CMP R0,R1 with equal register values. -/
def sCmpDemo : CPUState :=
  { ram := writeAll (List.replicate 256 0) 0 [0b10100111, 0, 1]
    reg := [4, 4, 0, 0, 0, 0, 0, 0]
    pc := 0
    running := true
    op_pc := false
    equal := 0
    output := [] }

/-- A freshly loaded image whose first byte, 99, is no opcode. -/
def sUnknownOp : CPUState := loadImage [99]

/-- The state after one loop iteration from `sCmpDemo`. -/
def afterCmpDemo : CPUState := (nextState sCmpDemo).getD initCPU

/-- The state after one loop iteration from the loaded scenario image. -/
def afterScenario1 : CPUState := (nextState (loadImage progScenario)).getD initCPU

-- Basic reduction lemmas for the Except monad and the Python list model.

theorem okBind {α β : Type} (a : α) (f : α → Except PyErr β) :
    (Except.ok a >>= f) = f a := rfl

theorem errBind {α β : Type} (e : PyErr) (f : α → Except PyErr β) :
    ((Except.error e : Except PyErr α) >>= f) = Except.error e := rfl

theorem contMapOk {m : Except PyErr CPUState} {t : CPUState} :
    (StepOut.cont <$> m = Except.ok (StepOut.cont t)) ↔ m = Except.ok t := by
  cases m <;> simp [Functor.map, Except.map]

theorem pyIdx_of_nonneg {n : Nat} {i : Int} (h0 : 0 ≤ i) (h : i < n) :
    pyIdx n i = some i.toNat := by
  unfold pyIdx
  rw [if_pos ⟨h0, h⟩]

theorem pyGet_nonneg {l : List Int} {i : Int} (h0 : 0 ≤ i) (h : i < l.length) :
    pyGet l i = Except.ok (l.getD i.toNat 0) := by
  unfold pyGet
  rw [pyIdx_of_nonneg h0 h]

theorem pySet_nonneg {l : List Int} {i v : Int} (h0 : 0 ≤ i) (h : i < l.length) :
    pySet l i v = Except.ok (l.set i.toNat v) := by
  unfold pySet
  rw [pyIdx_of_nonneg h0 h]

theorem pyGet_ok_elim {l : List Int} {i x : Int} (h0 : 0 ≤ i)
    (h : pyGet l i = Except.ok x) : i < l.length ∧ l.getD i.toNat 0 = x := by
  by_cases hlt : i < l.length
  · rw [pyGet_nonneg h0 hlt] at h
    exact ⟨hlt, Except.ok.inj h⟩
  · exfalso
    unfold pyGet pyIdx at h
    rw [if_neg (by omega), if_neg (by omega)] at h
    exact Except.noConfusion h

theorem getD_set_self {l : List Int} {n : Nat} {v : Int} (h : n < l.length) :
    (l.set n v).getD n 0 = v := by
  rw [List.getD_eq_getElem _ _ (by rw [List.length_set]; exact h)]
  exact List.getElem_set_self _

theorem getD_set_ne {l : List Int} {n m : Nat} {v : Int} (hne : n ≠ m) :
    (l.set n v).getD m 0 = l.getD m 0 := by
  by_cases hm : m < l.length
  · rw [List.getD_eq_getElem _ _ (by rw [List.length_set]; exact hm),
      List.getD_eq_getElem _ _ hm]
    exact List.getElem_set_ne hne _
  · rw [List.getD_eq_default _ _ (by rw [List.length_set]; omega),
      List.getD_eq_default _ _ (by omega)]

theorem step_of_nextState {s t : CPUState} (h : nextState s = some t) :
    step s = Except.ok (StepOut.cont t) := by
  unfold nextState at h
  cases hs : step s with
  | error e => rw [hs] at h; exact Option.noConfusion h
  | ok o =>
    cases o with
    | cont u => rw [hs] at h; rw [Option.some.inj h]
    | unknown ir u => rw [hs] at h; exact Option.noConfusion h

theorem pureOk {α : Type} (a : α) : (pure a : Except PyErr α) = Except.ok a := rfl

theorem pureBind {α β : Type} (a : α) (f : α → Except PyErr β) :
    ((pure a : Except PyErr α) >>= f) = f a := rfl

-- Frame lemmas: fields each handler leaves untouched.

theorem alu_reg_only {op : String} {a b : Int} {s u : CPUState}
    (h : alu op a b s = Except.ok u) :
    u.equal = s.equal ∧ u.ram = s.ram ∧ u.running = s.running ∧
      u.output = s.output := by
  unfold alu at h
  by_cases hop : op = "ADD"
  · rw [if_pos hop] at h
    cases h1 : pyGet s.reg a with
    | error e => rw [h1, errBind] at h; exact Except.noConfusion h
    | ok va =>
      rw [h1] at h; simp only [okBind] at h
      cases h2 : pyGet s.reg b with
      | error e => rw [h2, errBind] at h; exact Except.noConfusion h
      | ok vb =>
        rw [h2] at h; simp only [okBind] at h
        cases h3 : pySet s.reg a (va + vb) with
        | error e => rw [h3, errBind] at h; exact Except.noConfusion h
        | ok reg1 =>
          rw [h3] at h; simp only [okBind] at h
          rw [pureOk] at h
          have hs := Except.ok.inj h
          subst hs
          exact ⟨rfl, rfl, rfl, rfl⟩
  · rw [if_neg hop] at h
    by_cases hop2 : op = "MUL"
    · rw [if_pos hop2] at h
      cases h1 : pyGet s.reg a with
      | error e => rw [h1, errBind] at h; exact Except.noConfusion h
      | ok va =>
        rw [h1] at h; simp only [okBind] at h
        cases h2 : pyGet s.reg b with
        | error e => rw [h2, errBind] at h; exact Except.noConfusion h
        | ok vb =>
          rw [h2] at h; simp only [okBind] at h
          cases h3 : pySet s.reg a (va * vb) with
          | error e => rw [h3, errBind] at h; exact Except.noConfusion h
          | ok reg1 =>
            rw [h3] at h; simp only [okBind] at h
            rw [pureOk] at h
            have hs := Except.ok.inj h
            subst hs
            exact ⟨rfl, rfl, rfl, rfl⟩
    · rw [if_neg hop2] at h
      exact Except.noConfusion h

theorem hLdi_frame {a b : Int} {s s' : CPUState} (h : hLdi a b s = Except.ok s') :
    s'.equal = s.equal ∧ s'.ram = s.ram := by
  unfold hLdi at h
  cases h1 : pySet s.reg a b with
  | error e => rw [h1, errBind] at h; exact Except.noConfusion h
  | ok reg1 =>
    rw [h1] at h; simp only [okBind] at h
    rw [pureOk] at h
    have hs := Except.ok.inj h
    subst hs
    exact ⟨rfl, rfl⟩

theorem hPrn_frame {a b : Int} {s s' : CPUState} (h : hPrn a b s = Except.ok s') :
    s'.equal = s.equal ∧ s'.ram = s.ram := by
  unfold hPrn at h
  cases h1 : pyGet s.reg a with
  | error e => rw [h1, errBind] at h; exact Except.noConfusion h
  | ok v =>
    rw [h1] at h; simp only [okBind] at h
    rw [pureOk] at h
    have hs := Except.ok.inj h
    subst hs
    exact ⟨rfl, rfl⟩

theorem hAdd_frame {a b : Int} {s s' : CPUState} (h : hAdd a b s = Except.ok s') :
    s'.equal = s.equal ∧ s'.ram = s.ram := by
  unfold hAdd at h
  cases h1 : alu ("ADD") a b s with
  | error e => rw [h1, errBind] at h; exact Except.noConfusion h
  | ok u =>
    rw [h1] at h; simp only [okBind] at h
    rw [pureOk] at h
    have hs := Except.ok.inj h
    subst hs
    obtain ⟨he, hr, -, -⟩ := alu_reg_only h1
    exact ⟨he, hr⟩

theorem hMul_frame {a b : Int} {s s' : CPUState} (h : hMul a b s = Except.ok s') :
    s'.equal = s.equal ∧ s'.ram = s.ram := by
  unfold hMul at h
  cases h1 : alu ("MUL") a b s with
  | error e => rw [h1, errBind] at h; exact Except.noConfusion h
  | ok u =>
    rw [h1] at h; simp only [okBind] at h
    rw [pureOk] at h
    have hs := Except.ok.inj h
    subst hs
    obtain ⟨he, hr, -, -⟩ := alu_reg_only h1
    exact ⟨he, hr⟩

theorem hHlt_frame {a b : Int} {s s' : CPUState} (h : hHlt a b s = Except.ok s') :
    s'.equal = s.equal ∧ s'.ram = s.ram := by
  unfold hHlt at h
  rw [pureOk] at h
  have hs := Except.ok.inj h
  subst hs
  exact ⟨rfl, rfl⟩

theorem hPushV_frame {r : Int} {s s' : CPUState} (h : hPushV r s = Except.ok s') :
    s'.equal = s.equal := by
  unfold hPushV at h
  cases h1 : pyGet s.reg r with
  | error e => rw [h1, errBind] at h; exact Except.noConfusion h
  | ok val =>
    rw [h1] at h; simp only [okBind] at h
    cases h2 : pyGet s.reg 7 with
    | error e => rw [h2, errBind] at h; exact Except.noConfusion h
    | ok sp0 =>
      rw [h2] at h; simp only [okBind] at h
      cases h3 : pySet s.reg 7 (sp0 - 1) with
      | error e => rw [h3, errBind] at h; exact Except.noConfusion h
      | ok reg1 =>
        rw [h3] at h; simp only [okBind] at h
        cases h4 : pyGet reg1 7 with
        | error e => rw [h4, errBind] at h; exact Except.noConfusion h
        | ok sp1 =>
          rw [h4] at h; simp only [okBind] at h
          cases h5 : pySet s.ram sp1 val with
          | error e => rw [h5, errBind] at h; exact Except.noConfusion h
          | ok ram1 =>
            rw [h5] at h; simp only [okBind] at h
            rw [pureOk] at h
            have hs := Except.ok.inj h
            subst hs
            rfl

theorem hPush_frame {a b : Int} {s s' : CPUState} (h : hPush a b s = Except.ok s') :
    s'.equal = s.equal := by
  unfold hPush at h
  cases h1 : pyGet s.ram (s.pc + 1) with
  | error e => rw [h1, errBind] at h; exact Except.noConfusion h
  | ok r =>
    rw [h1] at h; simp only [okBind] at h
    exact hPushV_frame h

theorem hPopV_frame {r : Int} {s s' : CPUState} (h : hPopV r s = Except.ok s') :
    s'.equal = s.equal ∧ s'.ram = s.ram := by
  unfold hPopV at h
  cases h1 : pyGet s.reg 7 with
  | error e => rw [h1, errBind] at h; exact Except.noConfusion h
  | ok sp0 =>
    rw [h1] at h; simp only [okBind] at h
    cases h2 : pyGet s.ram sp0 with
    | error e => rw [h2, errBind] at h; exact Except.noConfusion h
    | ok val =>
      rw [h2] at h; simp only [okBind] at h
      cases h3 : pySet s.reg r val with
      | error e => rw [h3, errBind] at h; exact Except.noConfusion h
      | ok reg1 =>
        rw [h3] at h; simp only [okBind] at h
        cases h4 : pyGet reg1 7 with
        | error e => rw [h4, errBind] at h; exact Except.noConfusion h
        | ok sp1 =>
          rw [h4] at h; simp only [okBind] at h
          cases h5 : pySet reg1 7 (sp1 + 1) with
          | error e => rw [h5, errBind] at h; exact Except.noConfusion h
          | ok reg2 =>
            rw [h5] at h; simp only [okBind] at h
            rw [pureOk] at h
            have hs := Except.ok.inj h
            subst hs
            exact ⟨rfl, rfl⟩

theorem hPop_frame {a b : Int} {s s' : CPUState} (h : hPop a b s = Except.ok s') :
    s'.equal = s.equal ∧ s'.ram = s.ram := by
  unfold hPop at h
  cases h1 : pyGet s.ram (s.pc + 1) with
  | error e => rw [h1, errBind] at h; exact Except.noConfusion h
  | ok r =>
    rw [h1] at h; simp only [okBind] at h
    exact hPopV_frame h

theorem hCall_frame {a b : Int} {s s' : CPUState} (h : hCall a b s = Except.ok s') :
    s'.equal = s.equal := by
  unfold hCall at h
  cases h1 : pyGet s.ram (s.pc + 1) with
  | error e => rw [h1, errBind] at h; exact Except.noConfusion h
  | ok r =>
    rw [h1] at h; simp only [okBind] at h
    cases h2 : pyGet s.reg 7 with
    | error e => rw [h2, errBind] at h; exact Except.noConfusion h
    | ok sp0 =>
      rw [h2] at h; simp only [okBind] at h
      cases h3 : pySet s.reg 7 (sp0 - 1) with
      | error e => rw [h3, errBind] at h; exact Except.noConfusion h
      | ok reg1 =>
        rw [h3] at h; simp only [okBind] at h
        cases h4 : pyGet reg1 7 with
        | error e => rw [h4, errBind] at h; exact Except.noConfusion h
        | ok sp1 =>
          rw [h4] at h; simp only [okBind] at h
          cases h5 : pySet s.ram sp1 (s.pc + 2) with
          | error e => rw [h5, errBind] at h; exact Except.noConfusion h
          | ok ram1 =>
            rw [h5] at h; simp only [okBind] at h
            cases h6 : pyGet reg1 r with
            | error e => rw [h6, errBind] at h; exact Except.noConfusion h
            | ok tgt =>
              rw [h6] at h; simp only [okBind] at h
              rw [pureOk] at h
              have hs := Except.ok.inj h
              subst hs
              rfl

theorem hRet_frame {a b : Int} {s s' : CPUState} (h : hRet a b s = Except.ok s') :
    s'.equal = s.equal ∧ s'.ram = s.ram := by
  unfold hRet at h
  cases h1 : pyGet s.reg 7 with
  | error e => rw [h1, errBind] at h; exact Except.noConfusion h
  | ok sp0 =>
    rw [h1] at h; simp only [okBind] at h
    cases h2 : pyGet s.ram sp0 with
    | error e => rw [h2, errBind] at h; exact Except.noConfusion h
    | ok v =>
      rw [h2] at h; simp only [okBind] at h
      cases h4 : pySet s.reg 7 (sp0 + 1) with
      | error e => rw [h4, errBind] at h; exact Except.noConfusion h
      | ok reg1 =>
        rw [h4] at h; simp only [okBind] at h
        rw [pureOk] at h
        have hs := Except.ok.inj h
        subst hs
        exact ⟨rfl, rfl⟩

theorem hCmp_spec {a b : Int} {s s' : CPUState} (h : hCmp a b s = Except.ok s') :
    s'.ram = s.ram ∧
      ∀ va vb : Int, pyGet s.reg a = Except.ok va → pyGet s.reg b = Except.ok vb →
        s'.equal = if va = vb then 1 else 0 := by
  unfold hCmp at h
  cases h1 : pyGet s.reg a with
  | error e => rw [h1, errBind] at h; exact Except.noConfusion h
  | ok va =>
    rw [h1] at h; simp only [okBind] at h
    cases h2 : pyGet s.reg b with
    | error e => rw [h2, errBind] at h; exact Except.noConfusion h
    | ok vb =>
      rw [h2] at h; simp only [okBind] at h
      rw [pureOk] at h
      have hs := Except.ok.inj h
      subst hs
      refine ⟨rfl, ?_⟩
      intro va1 vb1 hva hvb
      rw [← Except.ok.inj hva, ← Except.ok.inj hvb]
      rfl

theorem hJmp_frame {a b : Int} {s s' : CPUState} (h : hJmp a b s = Except.ok s') :
    s'.equal = s.equal ∧ s'.ram = s.ram := by
  unfold hJmp at h
  cases h1 : pyGet s.reg a with
  | error e => rw [h1, errBind] at h; exact Except.noConfusion h
  | ok v =>
    rw [h1] at h; simp only [okBind] at h
    rw [pureOk] at h
    have hs := Except.ok.inj h
    subst hs
    exact ⟨rfl, rfl⟩

theorem hJeq_frame {a b : Int} {s s' : CPUState} (h : hJeq a b s = Except.ok s') :
    s'.equal = s.equal ∧ s'.ram = s.ram := by
  unfold hJeq at h
  by_cases he : s.equal = 1
  · rw [if_pos he] at h
    cases h1 : pyGet s.reg a with
    | error e => rw [h1, errBind] at h; exact Except.noConfusion h
    | ok v =>
      rw [h1] at h; simp only [okBind, pureBind] at h
      rw [pureOk] at h
      have hs := Except.ok.inj h
      subst hs
      exact ⟨rfl, rfl⟩
  · rw [if_neg he] at h
    simp only [pureBind] at h
    rw [pureOk] at h
    have hs := Except.ok.inj h
    subst hs
    by_cases hop : s.op_pc
    · rw [if_pos hop]
      exact ⟨rfl, rfl⟩
    · rw [if_neg hop]
      exact ⟨rfl, rfl⟩

theorem hJne_frame {a b : Int} {s s' : CPUState} (h : hJne a b s = Except.ok s') :
    s'.equal = s.equal ∧ s'.ram = s.ram := by
  unfold hJne at h
  by_cases he : s.equal = 0
  · rw [if_pos he] at h
    cases h1 : pyGet s.reg a with
    | error e => rw [h1, errBind] at h; exact Except.noConfusion h
    | ok v =>
      rw [h1] at h; simp only [okBind, pureBind] at h
      rw [pureOk] at h
      have hs := Except.ok.inj h
      subst hs
      exact ⟨rfl, rfl⟩
  · rw [if_neg he] at h
    simp only [pureBind] at h
    rw [pureOk] at h
    have hs := Except.ok.inj h
    subst hs
    by_cases hop : s.op_pc
    · rw [if_pos hop]
      exact ⟨rfl, rfl⟩
    · rw [if_neg hop]
      exact ⟨rfl, rfl⟩

/-- Inversion of one successful loop iteration: the fetched opcode
selected exactly one handler from the branch table, and that handler
produced the successor state. -/
theorem step_cont_cases {s s' : CPUState} {ir : Int}
    (hir : pyGet s.ram s.pc = Except.ok ir)
    (h : step s = Except.ok (StepOut.cont s')) :
    ∃ a b, pyGet s.ram (s.pc + 1) = Except.ok a ∧
      pyGet s.ram (s.pc + 2) = Except.ok b ∧
      ((ir = PRN ∧ hPrn a b s = Except.ok s') ∨
       (ir = LDI ∧ hLdi a b s = Except.ok s') ∨
       (ir = ADD ∧ hAdd a b s = Except.ok s') ∨
       (ir = HLT ∧ hHlt a b s = Except.ok s') ∨
       (ir = MUL ∧ hMul a b s = Except.ok s') ∨
       (ir = PUSH ∧ hPush a b s = Except.ok s') ∨
       (ir = POP ∧ hPop a b s = Except.ok s') ∨
       (ir = CALL ∧ hCall a b s = Except.ok s') ∨
       (ir = RET ∧ hRet a b s = Except.ok s') ∨
       (ir = CMP ∧ hCmp a b s = Except.ok s') ∨
       (ir = JMP ∧ hJmp a b s = Except.ok s') ∨
       (ir = JEQ ∧ hJeq a b s = Except.ok s') ∨
       (ir = JNE ∧ hJne a b s = Except.ok s')) := by
  unfold step at h
  rw [hir] at h; simp only [okBind] at h
  cases ha : pyGet s.ram (s.pc + 1) with
  | error e => rw [ha, errBind] at h; exact Except.noConfusion h
  | ok a =>
  rw [ha] at h; simp only [okBind] at h
  cases hb : pyGet s.ram (s.pc + 2) with
  | error e => rw [hb, errBind] at h; exact Except.noConfusion h
  | ok b =>
  rw [hb] at h; simp only [okBind] at h
  refine ⟨a, b, rfl, rfl, ?_⟩
  by_cases h1 : ir = PRN
  · rw [if_pos h1] at h; exact Or.inl ⟨h1, contMapOk.mp h⟩
  rw [if_neg h1] at h
  by_cases h2 : ir = LDI
  · rw [if_pos h2] at h; exact Or.inr (Or.inl ⟨h2, contMapOk.mp h⟩)
  rw [if_neg h2] at h
  by_cases h3 : ir = ADD
  · rw [if_pos h3] at h
    exact Or.inr (Or.inr (Or.inl ⟨h3, contMapOk.mp h⟩))
  rw [if_neg h3] at h
  by_cases h4 : ir = HLT
  · rw [if_pos h4] at h
    exact Or.inr (Or.inr (Or.inr (Or.inl ⟨h4, contMapOk.mp h⟩)))
  rw [if_neg h4] at h
  by_cases h5 : ir = MUL
  · rw [if_pos h5] at h
    exact Or.inr (Or.inr (Or.inr (Or.inr (Or.inl ⟨h5, contMapOk.mp h⟩))))
  rw [if_neg h5] at h
  by_cases h6 : ir = PUSH
  · rw [if_pos h6] at h
    exact Or.inr (Or.inr (Or.inr (Or.inr (Or.inr (Or.inl ⟨h6, contMapOk.mp h⟩)))))
  rw [if_neg h6] at h
  by_cases h7 : ir = POP
  · rw [if_pos h7] at h
    exact Or.inr (Or.inr (Or.inr (Or.inr (Or.inr (Or.inr
      (Or.inl ⟨h7, contMapOk.mp h⟩))))))
  rw [if_neg h7] at h
  by_cases h8 : ir = CALL
  · rw [if_pos h8] at h
    exact Or.inr (Or.inr (Or.inr (Or.inr (Or.inr (Or.inr (Or.inr
      (Or.inl ⟨h8, contMapOk.mp h⟩)))))))
  rw [if_neg h8] at h
  by_cases h9 : ir = RET
  · rw [if_pos h9] at h
    exact Or.inr (Or.inr (Or.inr (Or.inr (Or.inr (Or.inr (Or.inr (Or.inr
      (Or.inl ⟨h9, contMapOk.mp h⟩))))))))
  rw [if_neg h9] at h
  by_cases h10 : ir = CMP
  · rw [if_pos h10] at h
    exact Or.inr (Or.inr (Or.inr (Or.inr (Or.inr (Or.inr (Or.inr (Or.inr (Or.inr
      (Or.inl ⟨h10, contMapOk.mp h⟩)))))))))
  rw [if_neg h10] at h
  by_cases h11 : ir = JMP
  · rw [if_pos h11] at h
    exact Or.inr (Or.inr (Or.inr (Or.inr (Or.inr (Or.inr (Or.inr (Or.inr (Or.inr
      (Or.inr (Or.inl ⟨h11, contMapOk.mp h⟩))))))))))
  rw [if_neg h11] at h
  by_cases h12 : ir = JEQ
  · rw [if_pos h12] at h
    exact Or.inr (Or.inr (Or.inr (Or.inr (Or.inr (Or.inr (Or.inr (Or.inr (Or.inr
      (Or.inr (Or.inr (Or.inl ⟨h12, contMapOk.mp h⟩)))))))))))
  rw [if_neg h12] at h
  by_cases h13 : ir = JNE
  · rw [if_pos h13] at h
    exact Or.inr (Or.inr (Or.inr (Or.inr (Or.inr (Or.inr (Or.inr (Or.inr (Or.inr
      (Or.inr (Or.inr (Or.inr ⟨h13, contMapOk.mp h⟩)))))))))))
  rw [if_neg h13] at h
  rw [pureOk] at h
  exact absurd (Except.ok.inj h) (fun hc => StepOut.noConfusion hc)

/-- When the fetched byte is none of the branch-table keys, the loop
body reports it, leaving the state untouched. -/
theorem step_unknown {s : CPUState} {ir a b : Int}
    (hir : pyGet s.ram s.pc = Except.ok ir)
    (ha : pyGet s.ram (s.pc + 1) = Except.ok a)
    (hb : pyGet s.ram (s.pc + 2) = Except.ok b)
    (hmem : ir ∉ knownOpcodes) :
    step s = Except.ok (StepOut.unknown ir s) := by
  simp only [knownOpcodes, List.mem_cons, List.mem_singleton, not_or] at hmem
  obtain ⟨n1, n2, n3, n4, n5, n6, n7, n8, n9, n10, n11, n12, n13, -⟩ := hmem
  unfold step
  rw [hir]; simp only [okBind]
  rw [ha]; simp only [okBind]
  rw [hb]; simp only [okBind]
  rw [if_neg n1, if_neg n2, if_neg n3, if_neg n4, if_neg n5, if_neg n6,
    if_neg n7, if_neg n8, if_neg n9, if_neg n10, if_neg n11, if_neg n12,
    if_neg n13]
  rfl

/-- C1: what the constructor actually establishes.  PC and the
comparison flag start at 0 as claimed, and loading an image touches only
memory, but the stack-pointer register `reg[7]` starts at 0, not at the
claimed 0xF4 = 244: `CPU.__init__` never stores 0xF4 anywhere. -/
theorem c1_initial_state :
    initCPU.pc = 0 ∧ initCPU.equal = 0 ∧ initCPU.reg.getD 7 0 = 0 ∧
      (∀ img : List Int, (loadImage img).reg = initCPU.reg ∧
        (loadImage img).pc = 0 ∧ (loadImage img).equal = 0) ∧
      initCPU.reg.getD 7 0 ≠ 244 :=
  ⟨rfl, rfl, by decide, fun _ => ⟨rfl, rfl, rfl⟩, by decide⟩

set_option maxRecDepth 10000 in
/-- C2: a not-taken JEQ does not always advance PC by 2.  Running
LDI R0,5; JMP R0 reaches PC = 5 with flag 0 and a JEQ instruction at
address 5; the JMP left `op_pc = True`, and since `handle_jeq` never
resets it on the not-taken path, the next iteration executes the JEQ and
leaves PC at 5 (instead of 7 = 5 + 2), looping forever. -/
theorem c2_not_taken_jeq_stuck :
    (run 2 (loadImage progJeqStuck)).stateOf.pc = 5 ∧
    (run 2 (loadImage progJeqStuck)).stateOf.equal = 0 ∧
    (run 2 (loadImage progJeqStuck)).stateOf.ram.getD 5 0 = JEQ ∧
    (run 3 (loadImage progJeqStuck)).isOutOfFuel = true ∧
    (run 3 (loadImage progJeqStuck)).stateOf.pc = 5 ∧
    (run 4 (loadImage progJeqStuck)).stateOf.pc = 5 ∧
    ((5 : Int) + 2 ≠ 5) := by decide

set_option maxRecDepth 10000 in
/-- C8: the twelve-byte scenario image prints exactly 17 once and then
falls out of the run loop normally (process exit status 0). -/
theorem c8_scenario_prints_17 :
    (run 6 (loadImage progScenario)).isClean = true ∧
    (run 6 (loadImage progScenario)).stateOf.output = [17] := by decide

set_option maxRecDepth 10000 in
/-- C7, counterexample: from the freshly loaded image
LDI R0,200; LDI R1,100; ADD R0,R1; JMP R0 the machine performs four
normal steps and ends with PC = 300, outside [0,255] (and the next
operand fetch then raises IndexError). -/
theorem c7_pc_escapes_range :
    (run 4 (loadImage progPcEscape)).isOutOfFuel = true ∧
    (run 4 (loadImage progPcEscape)).stateOf.pc = 300 ∧
    ¬((run 4 (loadImage progPcEscape)).stateOf.pc ≤ 255) := by decide

set_option maxRecDepth 10000 in
/-- C3, counterexample: executing ADD with R0 = 200 and R1 = 100 leaves
R0 = 300, not (200 + 100) mod 256 = 44: the ALU never wraps. -/
theorem c3_add_does_not_wrap :
    (run 1 sAddWrapCex).isOutOfFuel = true ∧
    (run 1 sAddWrapCex).stateOf.reg.getD 0 0 = 300 ∧
    ((200 + 100 : Int) % 256 = 44) ∧
    (run 1 sAddWrapCex).stateOf.reg.getD 0 0 ≠ (200 + 100) % 256 := by decide

set_option maxRecDepth 10000 in
/-- C6, counterexample: the balanced sequence PUSH R0; POP R7 (after
LDI R7,100; LDI R0,5) does not restore the stack pointer: popping into
register 7 overwrites it with the popped value before the increment,
leaving reg[7] = 6 instead of 100. -/
theorem c6_pop_into_sp_breaks :
    (run 2 (loadImage progPopIntoSp)).stateOf.reg.getD 7 0 = 100 ∧
    (run 4 (loadImage progPopIntoSp)).stateOf.reg.getD 7 0 = 6 ∧
    (run 4 (loadImage progPopIntoSp)).isOutOfFuel = true ∧
    ((6 : Int) ≠ 100) := by decide

theorem mapPure {α β : Type} (f : α → β) (x : α) :
    Except.map f (pure x : Except PyErr α) = Except.ok (f x) := rfl

/-- C9: the comparison flag is written only by CMP.  Any successful loop
iteration that dispatched an opcode other than CMP leaves `equal`
exactly as it was; a CMP iteration sets it to 1 when the two named
registers hold equal values and to 0 otherwise. -/
theorem c9_flag_only_cmp {s s' : CPUState} {ir a b : Int}
    (hstep : step s = Except.ok (StepOut.cont s'))
    (hir : pyGet s.ram s.pc = Except.ok ir)
    (ha : pyGet s.ram (s.pc + 1) = Except.ok a)
    (hb : pyGet s.ram (s.pc + 2) = Except.ok b) :
    (ir ≠ CMP → s'.equal = s.equal) ∧
      (ir = CMP → ∀ va vb : Int, pyGet s.reg a = Except.ok va →
        pyGet s.reg b = Except.ok vb →
        s'.equal = if va = vb then 1 else 0) := by
  obtain ⟨a1, b1, ha1, hb1, hcases⟩ := step_cont_cases hir hstep
  obtain rfl := Except.ok.inj (ha.symm.trans ha1)
  obtain rfl := Except.ok.inj (hb.symm.trans hb1)
  rcases hcases with ⟨hop, hh⟩ | ⟨hop, hh⟩ | ⟨hop, hh⟩ | ⟨hop, hh⟩ | ⟨hop, hh⟩ |
    ⟨hop, hh⟩ | ⟨hop, hh⟩ | ⟨hop, hh⟩ | ⟨hop, hh⟩ | ⟨hop, hh⟩ | ⟨hop, hh⟩ |
    ⟨hop, hh⟩ | ⟨hop, hh⟩
  · exact ⟨fun _ => (hPrn_frame hh).1,
      fun hcmp => absurd (hop.symm.trans hcmp) (by decide)⟩
  · exact ⟨fun _ => (hLdi_frame hh).1,
      fun hcmp => absurd (hop.symm.trans hcmp) (by decide)⟩
  · exact ⟨fun _ => (hAdd_frame hh).1,
      fun hcmp => absurd (hop.symm.trans hcmp) (by decide)⟩
  · exact ⟨fun _ => (hHlt_frame hh).1,
      fun hcmp => absurd (hop.symm.trans hcmp) (by decide)⟩
  · exact ⟨fun _ => (hMul_frame hh).1,
      fun hcmp => absurd (hop.symm.trans hcmp) (by decide)⟩
  · exact ⟨fun _ => hPush_frame hh,
      fun hcmp => absurd (hop.symm.trans hcmp) (by decide)⟩
  · exact ⟨fun _ => (hPop_frame hh).1,
      fun hcmp => absurd (hop.symm.trans hcmp) (by decide)⟩
  · exact ⟨fun _ => hCall_frame hh,
      fun hcmp => absurd (hop.symm.trans hcmp) (by decide)⟩
  · exact ⟨fun _ => (hRet_frame hh).1,
      fun hcmp => absurd (hop.symm.trans hcmp) (by decide)⟩
  · exact ⟨fun hne => absurd hop hne,
      fun _ va vb hva hvb => (hCmp_spec hh).2 va vb hva hvb⟩
  · exact ⟨fun _ => (hJmp_frame hh).1,
      fun hcmp => absurd (hop.symm.trans hcmp) (by decide)⟩
  · exact ⟨fun _ => (hJeq_frame hh).1,
      fun hcmp => absurd (hop.symm.trans hcmp) (by decide)⟩
  · exact ⟨fun _ => (hJne_frame hh).1,
      fun hcmp => absurd (hop.symm.trans hcmp) (by decide)⟩

set_option maxRecDepth 10000 in
/-- Witness for C9: executing CMP R0,R1 from a state with R0 = R1 = 4
sets the flag to 1, through the theorem. -/
theorem c9_flag_only_cmp_witness : afterCmpDemo.equal = 1 := by
  have hn : nextState sCmpDemo = some afterCmpDemo := by decide
  have hstep := step_of_nextState hn
  have hir : pyGet sCmpDemo.ram sCmpDemo.pc = Except.ok CMP := by decide
  have ha : pyGet sCmpDemo.ram (sCmpDemo.pc + 1) = Except.ok 0 := by decide
  have hb : pyGet sCmpDemo.ram (sCmpDemo.pc + 2) = Except.ok 1 := by decide
  have h := (c9_flag_only_cmp hstep hir ha hb).2 rfl 4 4 (by decide) (by decide)
  rw [h, if_pos rfl]

/-- C10: among all handlers only PUSH and CALL write to memory: a
successful loop iteration that dispatched any other opcode leaves every
memory cell unchanged (POP and RET read the popped cell without
clearing it). -/
theorem c10_only_push_call_write_ram {s s' : CPUState} {ir : Int}
    (hstep : step s = Except.ok (StepOut.cont s'))
    (hir : pyGet s.ram s.pc = Except.ok ir)
    (hnp : ir ≠ PUSH) (hnc : ir ≠ CALL) :
    s'.ram = s.ram := by
  obtain ⟨a, b, ha, hb, hcases⟩ := step_cont_cases hir hstep
  rcases hcases with ⟨hop, hh⟩ | ⟨hop, hh⟩ | ⟨hop, hh⟩ | ⟨hop, hh⟩ | ⟨hop, hh⟩ |
    ⟨hop, hh⟩ | ⟨hop, hh⟩ | ⟨hop, hh⟩ | ⟨hop, hh⟩ | ⟨hop, hh⟩ | ⟨hop, hh⟩ |
    ⟨hop, hh⟩ | ⟨hop, hh⟩
  · exact (hPrn_frame hh).2
  · exact (hLdi_frame hh).2
  · exact (hAdd_frame hh).2
  · exact (hHlt_frame hh).2
  · exact (hMul_frame hh).2
  · exact absurd hop hnp
  · exact (hPop_frame hh).2
  · exact absurd hop hnc
  · exact (hRet_frame hh).2
  · exact (hCmp_spec hh).1
  · exact (hJmp_frame hh).2
  · exact (hJeq_frame hh).2
  · exact (hJne_frame hh).2

set_option maxRecDepth 10000 in
/-- Witness for C10: the first scenario instruction (an LDI) leaves all
256 memory cells unchanged, through the theorem. -/
theorem c10_only_push_call_write_ram_witness :
    afterScenario1.ram = (loadImage progScenario).ram := by
  have hn : nextState (loadImage progScenario) = some afterScenario1 := by decide
  have hstep := step_of_nextState hn
  have hir : pyGet (loadImage progScenario).ram (loadImage progScenario).pc =
      Except.ok LDI := by decide
  exact c10_only_push_call_write_ram hstep hir (by decide) (by decide)

/-- C4: fetching an opcode byte with no branch-table entry is fatal: the
loop (with any fuel remaining) immediately reports the offending value
and exits with status 1, leaving the state -- registers, memory, flag,
output -- exactly as it was at the failed dispatch; no further
instruction executes. -/
theorem c4_unknown_opcode_fatal {s : CPUState} {ir a b : Int} (n : Nat)
    (hrun : s.running = true)
    (hir : pyGet s.ram s.pc = Except.ok ir)
    (ha : pyGet s.ram (s.pc + 1) = Except.ok a)
    (hb : pyGet s.ram (s.pc + 2) = Except.ok b)
    (hmem : ir ∉ knownOpcodes) :
    run (n + 1) s = RunResult.errorExit 1 ir s ∧
      step s = Except.ok (StepOut.unknown ir s) := by
  have hstep := step_unknown hir ha hb hmem
  refine ⟨?_, hstep⟩
  simp [run, hrun, hstep]

set_option maxRecDepth 10000 in
/-- Witness for C4: running the loaded single-byte image [99] exits with
status 1 reporting 99, through the theorem. -/
theorem c4_unknown_opcode_fatal_witness :
    run 1 sUnknownOp = RunResult.errorExit 1 99 sUnknownOp ∧
      step sUnknownOp = Except.ok (StepOut.unknown 99 sUnknownOp) := by
  have hir : pyGet sUnknownOp.ram sUnknownOp.pc = Except.ok 99 := by decide
  have ha : pyGet sUnknownOp.ram (sUnknownOp.pc + 1) = Except.ok 0 := by decide
  have hb : pyGet sUnknownOp.ram (sUnknownOp.pc + 2) = Except.ok 0 := by decide
  exact c4_unknown_opcode_fatal 0 (by decide) hir ha hb (by decide)

/-- C7 amended: the unconditional operand pre-fetch at PC+1 and PC+2 is
a safe in-bounds read whenever 0 ≤ PC ≤ 253 (PC itself is not
guaranteed to stay in [0,255], see the counterexample). -/
theorem c7_fetch_safe_when_pc_low {s : CPUState}
    (hlen : s.ram.length = 256) (h0 : 0 ≤ s.pc) (h253 : s.pc ≤ 253) :
    pyGet s.ram s.pc = Except.ok (s.ram.getD s.pc.toNat 0) ∧
      pyGet s.ram (s.pc + 1) = Except.ok (s.ram.getD (s.pc + 1).toNat 0) ∧
      pyGet s.ram (s.pc + 2) = Except.ok (s.ram.getD (s.pc + 2).toNat 0) :=
  ⟨pyGet_nonneg h0 (by omega), pyGet_nonneg (by omega) (by omega),
    pyGet_nonneg (by omega) (by omega)⟩

set_option maxRecDepth 10000 in
/-- Witness for C7 amended: all three fetches succeed at PC = 0 of the
loaded scenario image, through the theorem. -/
theorem c7_fetch_safe_when_pc_low_witness :
    pyGet (loadImage progScenario).ram (loadImage progScenario).pc =
      Except.ok ((loadImage progScenario).ram.getD
        (loadImage progScenario).pc.toNat 0) ∧
    pyGet (loadImage progScenario).ram ((loadImage progScenario).pc + 1) =
      Except.ok ((loadImage progScenario).ram.getD
        ((loadImage progScenario).pc + 1).toNat 0) ∧
    pyGet (loadImage progScenario).ram ((loadImage progScenario).pc + 2) =
      Except.ok ((loadImage progScenario).ram.getD
        ((loadImage progScenario).pc + 2).toNat 0) :=
  c7_fetch_safe_when_pc_low (by decide) (by decide) (by decide)

/-- C3 amended: ADD and MUL compute the exact (unwrapped) sum and
product of the two register values: the register file holds unbounded
integers and the ALU never reduces modulo 256. -/
theorem c3_alu_exact {s : CPUState} {a b va vb : Int}
    (ha0 : 0 ≤ a) (hb0 : 0 ≤ b)
    (hva : pyGet s.reg a = Except.ok va) (hvb : pyGet s.reg b = Except.ok vb) :
    Except.map (fun u => u.reg.getD a.toNat 0) (hAdd a b s) =
      Except.ok (va + vb) ∧
    Except.map (fun u => u.reg.getD a.toNat 0) (hMul a b s) =
      Except.ok (va * vb) := by
  have hlt : a < (s.reg.length : Int) := (pyGet_ok_elim ha0 hva).1
  have htn : a.toNat < s.reg.length := by omega
  constructor
  · unfold hAdd alu
    rw [if_pos rfl, hva]
    simp only [okBind]
    rw [hvb]
    simp only [okBind]
    rw [pySet_nonneg ha0 hlt]
    simp only [okBind, pureBind, mapPure]
    rw [if_neg (by decide)]
    dsimp only
    rw [getD_set_self htn]
  · unfold hMul alu
    rw [if_neg (by decide), if_pos rfl, hva]
    simp only [okBind]
    rw [hvb]
    simp only [okBind]
    rw [pySet_nonneg ha0 hlt]
    simp only [okBind, pureBind, mapPure]
    rw [if_neg (by decide)]
    dsimp only
    rw [getD_set_self htn]

/-- Witness for C3 amended: ADD on R0 = 5, R1 = 6 yields 11 and MUL
yields 30, through the theorem. -/
theorem c3_alu_exact_witness :
    Except.map (fun u => u.reg.getD (0 : Int).toNat 0) (hAdd 0 1 sStackDemo) =
      Except.ok (5 + 6) ∧
    Except.map (fun u => u.reg.getD (0 : Int).toNat 0) (hMul 0 1 sStackDemo) =
      Except.ok (5 * 6) := by
  have hva : pyGet sStackDemo.reg 0 = Except.ok 5 := by decide
  have hvb : pyGet sStackDemo.reg 1 = Except.ok 6 := by decide
  exact c3_alu_exact (by decide) (by decide) hva hvb

/-- Dispatch reduction: when the fetched byte is CALL, the loop body is
the CALL handler (the branch-table chain reduces definitionally). -/
theorem step_eq_call (s : CPUState) {a b : Int}
    (hIR : pyGet s.ram s.pc = Except.ok CALL)
    (ha : pyGet s.ram (s.pc + 1) = Except.ok a)
    (hb : pyGet s.ram (s.pc + 2) = Except.ok b) :
    step s = StepOut.cont <$> hCall a b s := by
  unfold step
  rw [hIR]
  simp only [okBind]
  rw [ha]
  simp only [okBind]
  rw [hb]
  simp only [okBind]
  rfl

/-- Dispatch reduction: when the fetched byte is RET, the loop body is
the RET handler. -/
theorem step_eq_ret (s : CPUState) {a b : Int}
    (hIR : pyGet s.ram s.pc = Except.ok RET)
    (ha : pyGet s.ram (s.pc + 1) = Except.ok a)
    (hb : pyGet s.ram (s.pc + 2) = Except.ok b) :
    step s = StepOut.cont <$> hRet a b s := by
  unfold step
  rw [hIR]
  simp only [okBind]
  rw [ha]
  simp only [okBind]
  rw [hb]
  simp only [okBind]
  rfl

/-- C5: executing CALL at address A whose operand register (a data
register distinct from the stack pointer) points at a RET instruction,
then executing that RET, leaves PC = A + 2 and restores the stack
pointer to its value before the CALL.  The hypotheses state that both
instructions actually execute: the fetches are in bounds, the stack
slot is in range, and the pushed return address does not overwrite the
RET opcode itself. -/
theorem c5_call_ret {s : CPUState} {A r tg v : Int}
    (hram : s.ram.length = 256) (hreg : s.reg.length = 8)
    (hpc : s.pc = A) (hA0 : 0 ≤ A) (hA : A ≤ 253)
    (hIR : pyGet s.ram A = Except.ok CALL)
    (hop : pyGet s.ram (A + 1) = Except.ok r) (hr0 : 0 ≤ r) (hr : r < 7)
    (htg : pyGet s.reg r = Except.ok tg) (htg0 : 0 ≤ tg) (htgle : tg ≤ 253)
    (hsp : pyGet s.reg 7 = Except.ok v) (hv1 : 1 ≤ v) (hvle : v ≤ 256)
    (hsep : v - 1 ≠ tg)
    (hret : pyGet s.ram tg = Except.ok RET) :
    (next2 s).map CPUState.pc = some (A + 2) ∧
      (next2 s).map (fun u => u.reg.getD 7 0) = some v := by
  have h7n : (0 : Int) ≤ 7 := by norm_num
  have hlset : (s.reg.set 7 (v - 1)).length = 8 := by rw [List.length_set, hreg]
  have e1 : pySet s.reg 7 (v - 1) = Except.ok (s.reg.set 7 (v - 1)) := by
    rw [pySet_nonneg h7n (by omega)]
    rfl
  have e2 : pyGet (s.reg.set 7 (v - 1)) 7 = Except.ok (v - 1) := by
    rw [pyGet_nonneg h7n (by omega)]
    rw [show ((7 : Int).toNat) = 7 from rfl]
    rw [getD_set_self (by omega)]
  have e3 : pySet s.ram (v - 1) (A + 2) =
      Except.ok (s.ram.set (v - 1).toNat (A + 2)) := by
    rw [pySet_nonneg (by omega) (by omega)]
  have e4 : pyGet (s.reg.set 7 (v - 1)) r = Except.ok tg := by
    rw [pyGet_nonneg hr0 (by omega)]
    rw [getD_set_ne (by omega : (7 : Nat) ≠ r.toNat)]
    rw [(pyGet_ok_elim hr0 htg).2]
  have hlram : (s.ram.set (v - 1).toNat (A + 2)).length = 256 := by
    rw [List.length_set, hram]
  have e5 : pyGet (s.ram.set (v - 1).toNat (A + 2)) tg = Except.ok RET := by
    rw [pyGet_nonneg htg0 (by omega)]
    rw [getD_set_ne (by omega : (v - 1).toNat ≠ tg.toNat)]
    rw [(pyGet_ok_elim htg0 hret).2]
  have e6 : pyGet (s.ram.set (v - 1).toNat (A + 2)) (tg + 1) =
      Except.ok ((s.ram.set (v - 1).toNat (A + 2)).getD (tg + 1).toNat 0) :=
    pyGet_nonneg (by omega) (by omega)
  have e6b : pyGet (s.ram.set (v - 1).toNat (A + 2)) (tg + 2) =
      Except.ok ((s.ram.set (v - 1).toNat (A + 2)).getD (tg + 2).toNat 0) :=
    pyGet_nonneg (by omega) (by omega)
  have e7 : pyGet (s.ram.set (v - 1).toNat (A + 2)) (v - 1) =
      Except.ok (A + 2) := by
    rw [pyGet_nonneg (by omega) (by omega)]
    rw [getD_set_self (by omega)]
  have e8 : pySet (s.reg.set 7 (v - 1)) 7 (v - 1 + 1) =
      Except.ok ((s.reg.set 7 (v - 1)).set 7 (v - 1 + 1)) := by
    rw [pySet_nonneg h7n (by omega)]
    rfl
  have hb2 : pyGet s.ram (A + 2) =
      Except.ok (s.ram.getD (A + 2).toNat 0) := pyGet_nonneg (by omega) (by omega)
  have hcall : hCall r (s.ram.getD (A + 2).toNat 0) s = Except.ok
      { s with reg := s.reg.set 7 (v - 1),
               ram := s.ram.set (v - 1).toNat (A + 2),
               pc := tg, op_pc := true } := by
    unfold hCall
    rw [hpc, hop]
    simp only [okBind]
    rw [hsp]
    simp only [okBind]
    rw [e1]
    simp only [okBind]
    rw [e2]
    simp only [okBind]
    rw [e3]
    simp only [okBind]
    rw [e4]
    simp only [okBind]
    rw [pureOk]
    rfl
  have hIRs : pyGet s.ram s.pc = Except.ok CALL := by rw [hpc]; exact hIR
  have hops : pyGet s.ram (s.pc + 1) = Except.ok r := by rw [hpc]; exact hop
  have hbs : pyGet s.ram (s.pc + 2) =
      Except.ok (s.ram.getD (A + 2).toNat 0) := by rw [hpc]; exact hb2
  have hstep1 : step s = Except.ok (StepOut.cont
      { s with reg := s.reg.set 7 (v - 1),
               ram := s.ram.set (v - 1).toNat (A + 2),
               pc := tg, op_pc := true }) := by
    rw [step_eq_call s hIRs hops hbs, hcall]
    rfl
  have hret2 : hRet ((s.ram.set (v - 1).toNat (A + 2)).getD (tg + 1).toNat 0)
      ((s.ram.set (v - 1).toNat (A + 2)).getD (tg + 2).toNat 0)
      ({ s with reg := s.reg.set 7 (v - 1),
                ram := s.ram.set (v - 1).toNat (A + 2),
                pc := tg, op_pc := true }) = Except.ok
      { s with reg := (s.reg.set 7 (v - 1)).set 7 (v - 1 + 1),
               ram := s.ram.set (v - 1).toNat (A + 2),
               pc := A + 2, op_pc := true } := by
    unfold hRet
    dsimp only
    rw [e2]
    simp only [okBind]
    rw [e7]
    simp only [okBind]
    rw [e8]
    simp only [okBind]
    rw [pureOk]
    rfl
  have hstep2 : step
      ({ s with reg := s.reg.set 7 (v - 1),
                ram := s.ram.set (v - 1).toNat (A + 2),
                pc := tg, op_pc := true }) =
      Except.ok (StepOut.cont
        { s with reg := (s.reg.set 7 (v - 1)).set 7 (v - 1 + 1),
                 ram := s.ram.set (v - 1).toNat (A + 2),
                 pc := A + 2, op_pc := true }) := by
    rw [step_eq_ret
        ({ s with reg := s.reg.set 7 (v - 1),
                  ram := s.ram.set (v - 1).toNat (A + 2),
                  pc := tg, op_pc := true })
        e5 e6 e6b, hret2]
    rfl
  have hn1 : nextState s = some
      ({ s with reg := s.reg.set 7 (v - 1),
                ram := s.ram.set (v - 1).toNat (A + 2),
                pc := tg, op_pc := true }) := by
    unfold nextState
    rw [hstep1]
  have hn2 : nextState
      ({ s with reg := s.reg.set 7 (v - 1),
                ram := s.ram.set (v - 1).toNat (A + 2),
                pc := tg, op_pc := true }) = some
      ({ s with reg := (s.reg.set 7 (v - 1)).set 7 (v - 1 + 1),
                ram := s.ram.set (v - 1).toNat (A + 2),
                pc := A + 2, op_pc := true }) := by
    unfold nextState
    rw [hstep2]
  have hnext : next2 s = some
      ({ s with reg := (s.reg.set 7 (v - 1)).set 7 (v - 1 + 1),
                ram := s.ram.set (v - 1).toNat (A + 2),
                pc := A + 2, op_pc := true }) := by
    unfold next2
    rw [hn1]
    exact hn2
  rw [hnext]
  constructor
  · rfl
  · show some (((s.reg.set 7 (v - 1)).set 7 (v - 1 + 1)).getD 7 0) = some v
    rw [getD_set_self (by omega)]
    have hv : v - 1 + 1 = v := by omega
    rw [hv]

set_option maxRecDepth 10000 in
/-- Witness for C5: from `sCallRet` (CALL R0 at address 0, R0 = 3,
RET at address 3, SP = 10) the two iterations leave PC = 0 + 2 and
SP = 10, through the theorem. -/
theorem c5_call_ret_witness :
    (next2 sCallRet).map CPUState.pc = some (0 + 2) ∧
      (next2 sCallRet).map (fun u => u.reg.getD 7 0) = some 10 := by
  have hIR : pyGet sCallRet.ram 0 = Except.ok CALL := by decide
  have hop : pyGet sCallRet.ram (0 + 1) = Except.ok 0 := by decide
  have htg : pyGet sCallRet.reg 0 = Except.ok 3 := by decide
  have hsp : pyGet sCallRet.reg 7 = Except.ok 10 := by decide
  have hret : pyGet sCallRet.ram 3 = Except.ok RET := by decide
  exact c5_call_ret (by decide) (by decide) (by decide) (by decide) (by decide)
    hIR hop (by decide) (by decide) htg (by decide) (by decide) hsp
    (by decide) (by decide) (by decide) hret

/-- Fully evaluated form of one PUSH body when the indices are in
range: the stack pointer is decremented and the register value stored at
the new top of stack. -/
theorem hPushV_ok {r : Int} {s : CPUState}
    (h8 : s.reg.length = 8) (hr0 : 0 ≤ r) (hr : r < 8)
    (hw0 : 0 ≤ s.reg.getD 7 0 - 1) (hw : s.reg.getD 7 0 - 1 < s.ram.length) :
    hPushV r s = Except.ok
      ({ s with reg := s.reg.set 7 (s.reg.getD 7 0 - 1),
                ram := s.ram.set (s.reg.getD 7 0 - 1).toNat
                  (s.reg.getD r.toNat 0),
                op_pc := false, pc := s.pc + 2 }) := by
  have h7n : (0 : Int) ≤ 7 := by norm_num
  unfold hPushV
  rw [pyGet_nonneg hr0 (by omega)]
  simp only [okBind]
  rw [pyGet_nonneg h7n (by omega)]
  simp only [okBind]
  rw [show ((7 : Int).toNat) = 7 from rfl]
  rw [pySet_nonneg h7n (by omega)]
  simp only [okBind]
  rw [show ((7 : Int).toNat) = 7 from rfl]
  rw [pyGet_nonneg h7n (by rw [List.length_set]; omega)]
  simp only [okBind]
  rw [show ((7 : Int).toNat) = 7 from rfl]
  rw [getD_set_self (by omega)]
  rw [pySet_nonneg hw0 hw]
  simp only [okBind]
  rw [pureOk]
  rfl

/-- Fully evaluated form of one POP body into a data register when the
indices are in range: the register receives the top-of-stack value and
the stack pointer is incremented; memory is untouched. -/
theorem hPopV_ok {r : Int} {s : CPUState}
    (h8 : s.reg.length = 8) (hr0 : 0 ≤ r) (hr : r < 7)
    (hsp0 : 0 ≤ s.reg.getD 7 0) (hsp : s.reg.getD 7 0 < s.ram.length) :
    hPopV r s = Except.ok
      ({ s with reg := (s.reg.set r.toNat
                  (s.ram.getD (s.reg.getD 7 0).toNat 0)).set 7
                  (s.reg.getD 7 0 + 1),
                op_pc := false, pc := s.pc + 2 }) := by
  have h7n : (0 : Int) ≤ 7 := by norm_num
  unfold hPopV
  rw [pyGet_nonneg h7n (by omega)]
  simp only [okBind]
  rw [show ((7 : Int).toNat) = 7 from rfl]
  rw [pyGet_nonneg hsp0 hsp]
  simp only [okBind]
  rw [pySet_nonneg hr0 (by omega)]
  simp only [okBind]
  rw [pyGet_nonneg h7n (by rw [List.length_set]; omega)]
  simp only [okBind]
  rw [show ((7 : Int).toNat) = 7 from rfl]
  rw [getD_set_ne (by omega : r.toNat ≠ 7)]
  rw [pySet_nonneg h7n (by rw [List.length_set]; omega)]
  simp only [okBind]
  rw [show ((7 : Int).toNat) = 7 from rfl]
  rw [pureOk]
  rfl

theorem cast_len_cons (a : Int) (l : List Int) :
    (((a :: l).length) : Int) = (l.length : Int) + 1 := by
  rw [List.length_cons]
  push_cast
  ring

/-- Simulation invariant for sequences of stack operations: if the
memory cells from the current stack pointer upward hold the abstract
stack `stk`, the data registers agree with the model registers, and the
sequence stays prefix-matched and within capacity, then executing the
sequence through the source handlers succeeds, delivers exactly the
values the abstract LIFO machine delivers, and lands with the stack
pointer at `v0` minus the final abstract stack depth. -/
theorem execStack_sim (ops : List SOp) :
    ∀ (s : CPUState) (stk mregs : List Int) (v0 : Int),
    s.reg.length = 8 → s.ram.length = 256 → mregs.length = 8 →
    opsRegsOK ops = true →
    depthsOK ops stk.length v0 = true →
    (stk.length : Int) ≤ v0 → v0 ≤ 256 →
    s.reg.getD 7 0 = v0 - stk.length →
    (∀ i : Nat, i < stk.length →
      s.ram.getD (v0 - stk.length + i).toNat 0 = stk.getD i 0) →
    (∀ j : Nat, j < 7 → s.reg.getD j 0 = mregs.getD j 0) →
    ∃ s' outs mres,
      execStack ops s = Except.ok (s', outs) ∧
      specStack ops mregs stk = some mres ∧
      mres.2.2 = outs ∧
      s'.reg.getD 7 0 = v0 - mres.2.1.length ∧
      (mres.2.1.length : Int) = stk.length + netBal ops := by
  induction ops with
  | nil =>
    intro s stk mregs v0 h8 h256 hm8 hrOK hdep hle hcap hsp hstk hagree
    refine ⟨s, [], (mregs, stk, []), rfl, rfl, rfl, hsp, ?_⟩
    simp [netBal]
  | cons op rest ih =>
    intro s stk mregs v0 h8 h256 hm8 hrOK hdep hle hcap hsp hstk hagree
    cases op with
    | push r =>
      simp only [opsRegsOK, Bool.and_eq_true, decide_eq_true_eq] at hrOK
      obtain ⟨⟨hr0, hr7⟩, hrOK2⟩ := hrOK
      simp only [depthsOK, Bool.and_eq_true, decide_eq_true_eq] at hdep
      obtain ⟨hd1, hdep2⟩ := hdep
      have hrtn : r.toNat < 7 := by omega
      have hw0 : 0 ≤ s.reg.getD 7 0 - 1 := by rw [hsp]; omega
      have hw : s.reg.getD 7 0 - 1 < (s.ram.length : Int) := by
        rw [hsp, h256]; omega
      have hp := hPushV_ok h8 hr0 (by omega) hw0 hw
      have hval : s.reg.getD r.toNat 0 = mregs.getD r.toNat 0 :=
        hagree r.toNat hrtn
      have hspv : s.reg.getD 7 0 - 1 =
          v0 - ((s.reg.getD r.toNat 0 :: stk).length : Int) := by
        rw [hsp, cast_len_cons]; ring
      -- invariant facts for the post-push state
      have h8b : (s.reg.set 7 (s.reg.getD 7 0 - 1)).length = 8 := by
        rw [List.length_set]; exact h8
      have h256b : (s.ram.set (s.reg.getD 7 0 - 1).toNat
          (s.reg.getD r.toNat 0)).length = 256 := by
        rw [List.length_set]; exact h256
      have hspb : (s.reg.set 7 (s.reg.getD 7 0 - 1)).getD 7 0 =
          v0 - ((s.reg.getD r.toNat 0 :: stk).length : Int) := by
        rw [getD_set_self (by omega)]; exact hspv
      have hdep2b : depthsOK rest
          (((s.reg.getD r.toNat 0 :: stk).length : Int)) v0 = true := by
        rw [cast_len_cons]; exact hdep2
      have hleb : (((s.reg.getD r.toNat 0 :: stk).length : Int)) ≤ v0 := by
        rw [cast_len_cons]; omega
      have hstkb : ∀ i : Nat, i < (s.reg.getD r.toNat 0 :: stk).length →
          (s.ram.set (s.reg.getD 7 0 - 1).toNat
            (s.reg.getD r.toNat 0)).getD
            (v0 - ((s.reg.getD r.toNat 0 :: stk).length : Int) + i).toNat 0 =
          (s.reg.getD r.toNat 0 :: stk).getD i 0 := by
        intro i hi
        cases i with
        | zero =>
          have haddr : v0 - ((s.reg.getD r.toNat 0 :: stk).length : Int) +
              ((0 : Nat) : Int) = s.reg.getD 7 0 - 1 := by
            rw [hspv]; push_cast; ring
          rw [haddr, List.getD_cons_zero]
          exact getD_set_self (by omega)
        | succ j =>
          have hj : j < stk.length := by
            rw [List.length_cons] at hi; omega
          have haddr : v0 - ((s.reg.getD r.toNat 0 :: stk).length : Int) +
              ((j + 1 : Nat) : Int) = v0 - (stk.length : Int) + (j : Int) := by
            rw [cast_len_cons]; push_cast; ring
          rw [haddr, List.getD_cons_succ]
          rw [getD_set_ne ?hne]
          case hne =>
            have h1 : (0 : Int) ≤ v0 - (stk.length : Int) + (j : Int) := by
              omega
            omega
          exact hstk j hj
      have hagreeb : ∀ j : Nat, j < 7 →
          (s.reg.set 7 (s.reg.getD 7 0 - 1)).getD j 0 = mregs.getD j 0 := by
        intro j hj
        rw [getD_set_ne (by omega : (7 : Nat) ≠ j)]
        exact hagree j hj
      obtain ⟨s', outs, mres, hex, hspec, houts, hsp', hlen'⟩ :=
        ih ({ s with reg := s.reg.set 7 (s.reg.getD 7 0 - 1),
                     ram := s.ram.set (s.reg.getD 7 0 - 1).toNat
                       (s.reg.getD r.toNat 0),
                     op_pc := false, pc := s.pc + 2 })
          (s.reg.getD r.toNat 0 :: stk) mregs v0 h8b h256b hm8 hrOK2
          hdep2b hleb hcap hspb hstkb hagreeb
      refine ⟨s', outs, mres, ?_, ?_, houts, hsp', ?_⟩
      · show (hPushV r s >>= fun s1 =>
          execStack rest s1 >>= fun p => Except.ok p) = Except.ok (s', outs)
        rw [hp]
        simp only [okBind]
        rw [hex]
        simp only [okBind]
      · show specStack rest mregs (mregs.getD r.toNat 0 :: stk) = some mres
        rw [← hval]
        exact hspec
      · rw [hlen']
        simp only [netBal, cast_len_cons]
        ring
    | pop r =>
      simp only [opsRegsOK, Bool.and_eq_true, decide_eq_true_eq] at hrOK
      obtain ⟨⟨hr0, hr7⟩, hrOK2⟩ := hrOK
      simp only [depthsOK, Bool.and_eq_true, decide_eq_true_eq] at hdep
      obtain ⟨hd1, hdep2⟩ := hdep
      cases stk with
      | nil => simp at hd1
      | cons w stkt =>
        have hrtn : r.toNat < 7 := by omega
        have hlen : ((w :: stkt).length : Int) = (stkt.length : Int) + 1 :=
          cast_len_cons w stkt
        have hsp0 : 0 ≤ s.reg.getD 7 0 := by rw [hsp]; omega
        have hsplt : s.reg.getD 7 0 < (s.ram.length : Int) := by
          rw [hsp, h256, hlen]; omega
        have hpop := hPopV_ok h8 hr0 hr7 hsp0 hsplt
        -- the delivered value is the top of the abstract stack
        have hwval : s.ram.getD (s.reg.getD 7 0).toNat 0 = w := by
          have h0 := hstk 0 (by rw [List.length_cons]; omega)
          rw [List.getD_cons_zero] at h0
          have haddr : v0 - ((w :: stkt).length : Int) + ((0 : Nat) : Int) =
              s.reg.getD 7 0 := by rw [hsp]; push_cast; ring
          rw [haddr] at h0
          exact h0
        have hspv : s.reg.getD 7 0 + 1 = v0 - (stkt.length : Int) := by
          rw [hsp, hlen]; ring
        -- invariant facts for the post-pop state
        have h8b : ((s.reg.set r.toNat
            (s.ram.getD (s.reg.getD 7 0).toNat 0)).set 7
            (s.reg.getD 7 0 + 1)).length = 8 := by
          rw [List.length_set, List.length_set]; exact h8
        have hm8b : (mregs.set r.toNat w).length = 8 := by
          rw [List.length_set]; exact hm8
        have hspb : ((s.reg.set r.toNat
            (s.ram.getD (s.reg.getD 7 0).toNat 0)).set 7
            (s.reg.getD 7 0 + 1)).getD 7 0 = v0 - (stkt.length : Int) := by
          rw [getD_set_self (by rw [List.length_set]; omega)]
          exact hspv
        have hdep2b : depthsOK rest ((stkt.length : Int)) v0 = true := by
          have : (((w :: stkt).length : Int)) - 1 = (stkt.length : Int) := by
            rw [hlen]; ring
          rw [← this]
          exact hdep2
        have hleb : ((stkt.length : Int)) ≤ v0 := by
          rw [hlen] at hle; omega
        have hstkb : ∀ i : Nat, i < stkt.length →
            s.ram.getD (v0 - (stkt.length : Int) + i).toNat 0 =
            stkt.getD i 0 := by
          intro i hi
          have h1 := hstk (i + 1) (by rw [List.length_cons]; omega)
          rw [List.getD_cons_succ] at h1
          have haddr : v0 - ((w :: stkt).length : Int) + ((i + 1 : Nat) : Int) =
              v0 - (stkt.length : Int) + (i : Int) := by
            rw [hlen]; push_cast; ring
          rw [haddr] at h1
          exact h1
        have hagreeb : ∀ j : Nat, j < 7 →
            ((s.reg.set r.toNat
              (s.ram.getD (s.reg.getD 7 0).toNat 0)).set 7
              (s.reg.getD 7 0 + 1)).getD j 0 =
            (mregs.set r.toNat w).getD j 0 := by
          intro j hj
          rw [getD_set_ne (by omega : (7 : Nat) ≠ j)]
          by_cases hjr : j = r.toNat
          · subst hjr
            rw [getD_set_self (by omega), getD_set_self (by omega), hwval]
          · rw [getD_set_ne (by omega : r.toNat ≠ j),
              getD_set_ne (by omega : r.toNat ≠ j)]
            exact hagree j hj
        obtain ⟨s', outs, mres, hex, hspec, houts, hsp', hlen'⟩ :=
          ih ({ s with reg := (s.reg.set r.toNat
                         (s.ram.getD (s.reg.getD 7 0).toNat 0)).set 7
                         (s.reg.getD 7 0 + 1),
                       op_pc := false, pc := s.pc + 2 })
            stkt (mregs.set r.toNat w) v0 h8b h256 hm8b hrOK2
            hdep2b hleb hcap hspb hstkb hagreeb
        refine ⟨s', w :: outs, (mres.1, mres.2.1, w :: mres.2.2),
          ?_, ?_, ?_, hsp', ?_⟩
        · show (pyGet s.reg 7 >>= fun sp0 =>
            pyGet s.ram sp0 >>= fun v =>
            hPopV r s >>= fun s1 =>
            execStack rest s1 >>= fun p =>
            Except.ok (p.1, v :: p.2)) = Except.ok (s', w :: outs)
          rw [pyGet_nonneg (by norm_num : (0 : Int) ≤ 7) (by omega)]
          simp only [okBind]
          rw [show ((7 : Int).toNat) = 7 from rfl]
          rw [pyGet_nonneg hsp0 hsplt]
          simp only [okBind]
          rw [hwval, hpop]
          simp only [okBind]
          rw [hex]
          simp only [okBind]
        · show specStack (SOp.pop r :: rest) mregs (w :: stkt) =
            some (mres.1, mres.2.1, w :: mres.2.2)
          simp only [specStack]
          rw [hspec]
        · show w :: mres.2.2 = w :: outs
          rw [houts]
        · show ((mres.2.1.length : Int)) = ((w :: stkt).length : Int) +
            netBal (SOp.pop r :: rest)
          rw [hlen', hlen]
          simp only [netBal]
          ring

/-- C6 amended: for any balanced, prefix-matched sequence of PUSH/POP
instructions on data registers R0-R6 that stays within the stack
capacity (depth never exceeding the initial stack-pointer value, which
lies in [0,256]), execution through the source handlers succeeds, the
POPs deliver exactly the values the abstract LIFO stack machine
delivers -- each POP returns its matching PUSH's value, i.e. the pushed
values in exact reverse order -- and the stack pointer (register 7)
returns to its initial value. -/
theorem c6_stack_lifo (ops : List SOp) (s : CPUState)
    (h8 : s.reg.length = 8) (h256 : s.ram.length = 256)
    (hregs : opsRegsOK ops = true)
    (hdep : depthsOK ops 0 (s.reg.getD 7 0) = true)
    (hbal : netBal ops = 0)
    (hv0 : 0 ≤ s.reg.getD 7 0) (hv1 : s.reg.getD 7 0 ≤ 256) :
    Except.map (fun p => p.1.reg.getD 7 0) (execStack ops s) =
      Except.ok (s.reg.getD 7 0) ∧
    (execStack ops s).toOption.map (fun p => p.2) =
      (specStack ops s.reg []).map (fun m => m.2.2) ∧
    (specStack ops s.reg []).map (fun m => m.2.1) = some [] := by
  obtain ⟨s', outs, mres, hex, hspec, houts, hsp', hlen'⟩ :=
    execStack_sim ops s [] s.reg (s.reg.getD 7 0) h8 h256 h8 hregs
      (by simpa using hdep) (by simpa using hv0) hv1 (by simp)
      (by intro i hi; simp at hi) (fun j hj => rfl)
  have hlen0 : mres.2.1.length = 0 := by
    have h1 : (mres.2.1.length : Int) = 0 := by
      rw [hlen', hbal]
      simp
    omega
  have hnil : mres.2.1 = [] := List.eq_nil_of_length_eq_zero hlen0
  refine ⟨?_, ?_, ?_⟩
  · rw [hex]
    simp only [Except.map]
    rw [hsp', hnil]
    simp
  · rw [hex, hspec]
    simp only [Except.toOption, Option.map]
    rw [houts]
  · rw [hspec]
    simp only [Option.map]
    rw [hnil]

set_option maxRecDepth 10000 in
/-- Witness for C6 amended: the sequence PUSH R0; PUSH R1; POP R2;
POP R3 from `sStackDemo` (R0 = 5, R1 = 6, SP = 10), through the
theorem. -/
theorem c6_stack_lifo_witness :
    Except.map (fun p => p.1.reg.getD 7 0)
      (execStack [SOp.push 0, SOp.push 1, SOp.pop 2, SOp.pop 3] sStackDemo) =
      Except.ok (sStackDemo.reg.getD 7 0) ∧
    (execStack [SOp.push 0, SOp.push 1, SOp.pop 2, SOp.pop 3]
        sStackDemo).toOption.map (fun p => p.2) =
      (specStack [SOp.push 0, SOp.push 1, SOp.pop 2, SOp.pop 3]
        sStackDemo.reg []).map (fun m => m.2.2) ∧
    (specStack [SOp.push 0, SOp.push 1, SOp.pop 2, SOp.pop 3]
        sStackDemo.reg []).map (fun m => m.2.1) = some [] :=
  c6_stack_lifo _ _ (by decide) (by decide) (by decide) (by decide)
    (by decide) (by decide) (by decide)
